import Mathlib

/-!
Shallow embedding of the recipe persistence and search subsystem of
`gecko-recipes` (src/persistance/recipe.rs, src/persistance/implementation/
postgres.rs, src/core/recipe.rs).

The relational store is modelled as an explicit state (`Db`) holding the two
tables `recipe` and `ingredient` as lists of rows together with the
id-generating sequences.  Each repository operation is a function from the
store state (and its arguments) to the committed store state paired with the
operation's `Result`; a rolled-back transaction returns the original state.
-/

deriving instance DecidableEq for Except

/-- `std::time::Duration`: whole seconds plus a sub-second nanosecond part. -/
structure Duration where
  secs : Nat
  nanos : Nat
deriving DecidableEq, Repr

/-- `Duration::as_secs`: the whole-second part, sub-second part dropped. -/
def Duration.as_secs (d : Duration) : Nat := d.secs

/-- `Duration::from_secs`: a duration with no sub-second part. -/
def Duration.from_secs (n : Nat) : Duration := ⟨n, 0⟩

/-- Rust `as i64` applied to a `u64` value (two's-complement reinterpretation). -/
def u64AsI64 (n : Nat) : Int :=
  if n < 2 ^ 63 then (n : Int) else (n : Int) - 2 ^ 64

/-- Rust `as u64` applied to an `i64` value (two's-complement reinterpretation). -/
def i64AsU64 (i : Int) : Nat := (i % 2 ^ 64).toNat

/-- Rust `as i32` applied to a `usize` index (wraps modulo `2^32`). -/
def usizeAsI32 (n : Nat) : Int :=
  if n % 2 ^ 32 < 2 ^ 31 then ((n % 2 ^ 32 : Nat) : Int)
  else ((n % 2 ^ 32 : Nat) : Int) - 2 ^ 32

/-- `persistance::recipe::MealType`. -/
inductive MealType where
  | Breakfast
  | Lunch
  | Dinner
deriving DecidableEq, Repr

/-- `persistance::recipe::QuantityType`. -/
inductive QuantityType where
  | Count
  | Kilo
  | Gram
  | Liter
  | Milliliter
deriving DecidableEq, Repr

/-- `persistance::recipe::IngredientEntity`; this is also the row shape of the
`ingredient` table (the sqlx `FromRow` derive maps rows to it 1:1).  The f32
`quantity` is carried as a rational: the code never computes with it, it is
only stored and read back unchanged. -/
structure IngredientEntity where
  ingredient_id : Int
  recipe_id : Int
  ingredient_order : Int
  name : String
  quantity_type : QuantityType
  quantity : Rat
deriving DecidableEq, Repr

/-- `persistance::recipe::MutableIngredientEntity`. -/
structure MutableIngredientEntity where
  name : String
  quantity_type : QuantityType
  quantity : Rat
deriving DecidableEq, Repr

/-- `persistance::recipe::RecipeEntity`. -/
structure RecipeEntity where
  recipe_id : Int
  name : String
  description : Option String
  ingredients : List IngredientEntity
  cooking_time : Option Duration
  meal_type : MealType
deriving DecidableEq, Repr

/-- `persistance::recipe::MutableRecipeEntity`. -/
structure MutableRecipeEntity where
  name : String
  description : Option String
  ingredients : List MutableIngredientEntity
  cooking_time : Option Duration
  meal_type : MealType
deriving DecidableEq, Repr

/-- A row of the `recipe` table: `recipe(recipe_id PK, name, description NULL,
cooking_time_secs NULL bigint, meal_type enum)`. -/
structure RecipeRow where
  recipe_id : Int
  name : String
  description : Option String
  cooking_time_secs : Option Int
  meal_type : MealType
deriving DecidableEq, Repr

/-- The relational store: the two tables (rows in physical/insertion order,
which is the order scans and `JSON_AGG` produce them in) and the two
id-generating sequences. -/
structure Db where
  recipes : List RecipeRow
  ingredients : List IngredientEntity
  nextRecipeId : Int
  nextIngredientId : Int
deriving DecidableEq, Repr

/-- Store well-formedness: primary keys are unique and the id sequences are
ahead of every id already handed out (`recipe_id` of an ingredient row also
references an issued recipe id). -/
def Db.wf (db : Db) : Prop :=
  (db.recipes.map (·.recipe_id)).Nodup ∧
  (db.ingredients.map (·.ingredient_id)).Nodup ∧
  (∀ r ∈ db.recipes, r.recipe_id < db.nextRecipeId) ∧
  (∀ i ∈ db.ingredients,
    i.recipe_id < db.nextRecipeId ∧ i.ingredient_id < db.nextIngredientId)

instance (db : Db) : Decidable db.wf := by
  unfold Db.wf
  infer_instance

/-- `persistance::recipe::SearchRecipesArguments` (shape as constructed by
`core::recipe::RecipeService::search_recipes`). -/
structure SearchRecipesArguments where
  recipe_name : Option String
  ingredient_name : Option String
  meal_type : Option MealType
deriving DecidableEq, Repr

/-- `sqlx::Error`, restricted to the variants the adapter distinguishes. -/
inductive SqlxError where
  | RowNotFound
  | InvalidQuery
deriving DecidableEq, Repr

/-- `persistance::recipe::ListRecipeError` (the `eyre::Report` payload is
carried as its rendered message). -/
inductive ListRecipeError where
  | Unknown (msg : String)
deriving DecidableEq, Repr

/-- `persistance::recipe::CreateRecipeError`. -/
inductive CreateRecipeError where
  | Unknown (msg : String)
deriving DecidableEq, Repr

/-- `persistance::recipe::UpdateRecipeError`. -/
inductive UpdateRecipeError where
  | Unknown (msg : String)
  | NotFound
deriving DecidableEq, Repr

/-- `persistance::recipe::DeleteRecipeError`. -/
inductive DeleteRecipeError where
  | Unknown (msg : String)
  | NotFound
deriving DecidableEq, Repr

/-- `persistance::recipe::SearchRecipeError`. -/
inductive SearchRecipeError where
  | Unknown (msg : String)
deriving DecidableEq, Repr

/-- SQL `LIKE` pattern matching against a whole string: `%` matches any
(possibly empty) character sequence, `_` matches exactly one character, a
backslash escapes the following pattern character.  Fuel-indexed so that the
kernel can evaluate it; every recursive call shrinks `ps.length + s.length`,
so `ps.length + s.length + 1` fuel is always enough. -/
def likeMatchAux : Nat → List Char → List Char → Bool
  | 0, _, _ => false
  | Nat.succ fuel, ps, s =>
    match ps, s with
    | [], rest => rest.isEmpty
    | '%' :: ps, s =>
      likeMatchAux fuel ps s ||
        (match s with
         | [] => false
         | _ :: s => likeMatchAux fuel ('%' :: ps) s)
    | '_' :: ps, _ :: s => likeMatchAux fuel ps s
    | '_' :: _, [] => false
    | '\\' :: p :: ps, c :: s => p == c && likeMatchAux fuel ps s
    | '\\' :: _ :: _, [] => false
    | p :: ps, c :: s => p == c && likeMatchAux fuel ps s
    | _ :: _, [] => false

/-- SQL `LIKE`: does pattern `ps` match the whole string `s`? -/
def likeMatch (ps s : List Char) : Bool :=
  likeMatchAux (ps.length + s.length + 1) ps s

/-- Case folding applied to both sides of an `ILIKE` comparison. -/
def lowerStr (s : String) : List Char := s.data.map Char.toLower

/-- `s ILIKE '%' || term || '%'` as issued by `search_recipes`: both sides are
compared case-insensitively and the term is wrapped in `%` wildcards (any
`%`/`_`/backslash inside `term` keeps its `LIKE` meta-meaning). -/
def ilikeContains (s term : String) : Bool :=
  likeMatch ('%' :: lowerStr term ++ ['%']) (lowerStr s)

/-- The ingredient rows of one recipe, in table order — what the
`ingredients_grouped` CTE (`JSON_AGG` over `ingredient` grouped by
`recipe_id`) aggregates for that recipe. -/
def ingredientsFor (db : Db) (rid : Int) : List IngredientEntity :=
  db.ingredients.filter (fun i => i.recipe_id == rid)

/-- Row-to-entity mapping shared by `list_recipes` and `search_recipes`: the
grouped ingredient JSON is attached (`unwrap_or_default` turns the `NULL` of
an ingredient-less recipe into `[]`) and `cooking_time_secs` is read back via
`Duration::from_secs(value as u64)`. -/
def rowToEntity (db : Db) (r : RecipeRow) : RecipeEntity :=
  { recipe_id := r.recipe_id
    name := r.name
    description := r.description
    ingredients := ingredientsFor db r.recipe_id
    cooking_time := r.cooking_time_secs.map (fun v => Duration.from_secs (i64AsU64 v))
    meal_type := r.meal_type }

/-- `Postgres::list_recipes`: every recipe row joined with its aggregated
ingredients. -/
def list_recipes (db : Db) : List RecipeEntity :=
  db.recipes.map (rowToEntity db)

/-- The ingredient rows produced by the bulk `INSERT INTO ingredient ...`:
one row per submitted ingredient, `ingredient_order` bound to the enumeration
index (`idx as i32`), ids drawn consecutively from the sequence. -/
def newIngredientRows (nextId : Int) (rid : Int)
    (ings : List MutableIngredientEntity) : List IngredientEntity :=
  ings.enum.map (fun p =>
    { ingredient_id := nextId + p.1
      recipe_id := rid
      ingredient_order := usizeAsI32 p.1
      name := p.2.name
      quantity_type := p.2.quantity_type
      quantity := p.2.quantity })

/-- The bulk insert statement built by the `QueryBuilder`: an `INSERT ...
VALUES` with zero value rows is invalid SQL and is rejected by the store. -/
def bulkInsertIngredients (db : Db) (rid : Int)
    (ings : List MutableIngredientEntity) :
    Except SqlxError (Db × List IngredientEntity) :=
  if ings.isEmpty then .error .InvalidQuery
  else
    let rows := newIngredientRows db.nextIngredientId rid ings
    .ok ({ db with
            ingredients := db.ingredients ++ rows
            nextIngredientId := db.nextIngredientId + ings.length }, rows)

/-- `create_ingredients` (postgres.rs): skip the bulk insert entirely when the
list is empty — running the built query would always error then — otherwise
issue it and return the `RETURNING`-ed rows. -/
def create_ingredients (db : Db) (rid : Int)
    (ings : List MutableIngredientEntity) :
    Except SqlxError (Db × List IngredientEntity) :=
  if ings.isEmpty then .ok (db, [])
  else bulkInsertIngredients db rid ings

/-- The `recipe` row written by the create/update statements:
`cooking_time_secs` is bound to `entity.cooking_time.map(|t| t.as_secs() as i64)`. -/
def newRecipeRow (rid : Int) (e : MutableRecipeEntity) : RecipeRow :=
  { recipe_id := rid
    name := e.name
    description := e.description
    cooking_time_secs := e.cooking_time.map (fun t => u64AsI64 t.as_secs)
    meal_type := e.meal_type }

/-- The `RecipeEntity` composed from the `RETURNING` row plus the ingredient
rows, as built at the end of `create_recipe` / `update_recipe`. -/
def rowReturned (row : RecipeRow) (ings : List IngredientEntity) : RecipeEntity :=
  { recipe_id := row.recipe_id
    name := row.name
    description := row.description
    ingredients := ings
    cooking_time := row.cooking_time_secs.map (fun v => Duration.from_secs (i64AsU64 v))
    meal_type := row.meal_type }

/-- `Postgres::create_recipe`: inside one transaction, insert the recipe row
(id drawn from the sequence), insert the ingredients through
`create_ingredients`, commit.  Any step failing leaves the original store
(the transaction is dropped, hence rolled back). -/
def create_recipe (db : Db) (entity : MutableRecipeEntity) :
    Db × Except CreateRecipeError RecipeEntity :=
  let result := newRecipeRow db.nextRecipeId entity
  let tx : Db := { db with
    recipes := db.recipes ++ [result]
    nextRecipeId := db.nextRecipeId + 1 }
  match create_ingredients tx result.recipe_id entity.ingredients with
  | .error _ => (db, .error (.Unknown "Failed to create ingredients"))
  | .ok (tx2, ingredients) => (tx2, .ok (rowReturned result ingredients))

/-- `Postgres::update_recipe`: inside one transaction, `UPDATE ... RETURNING`
the recipe row (`fetch_one` turns zero matched rows into `RowNotFound`, mapped
to `NotFound`), delete every existing ingredient row of the recipe, re-insert
through `create_ingredients`, commit.  Any failing step leaves the original
store. -/
def update_recipe (db : Db) (recipe_id : Int) (entity : MutableRecipeEntity) :
    Db × Except UpdateRecipeError RecipeEntity :=
  match db.recipes.find? (fun r => r.recipe_id == recipe_id) with
  | none => (db, .error .NotFound)
  | some old =>
    let result := newRecipeRow old.recipe_id entity
    let tx1 : Db := { db with
      recipes := db.recipes.map (fun r => if r.recipe_id == recipe_id then result else r) }
    let tx2 : Db := { tx1 with
      ingredients := tx1.ingredients.filter (fun i => i.recipe_id != recipe_id) }
    match create_ingredients tx2 result.recipe_id entity.ingredients with
    | .error _ => (db, .error (.Unknown "Failed to create ingredients"))
    | .ok (tx3, ingredients) => (tx3, .ok (rowReturned result ingredients))

/-- `Postgres::delete_recipe`: inside one transaction, delete the ingredient
rows first, then the recipe row; commit only if the recipe delete affected a
row, otherwise roll back and fail with `NotFound`. -/
def delete_recipe (db : Db) (recipe_id : Int) :
    Db × Except DeleteRecipeError Unit :=
  let tx1 : Db := { db with
    ingredients := db.ingredients.filter (fun i => i.recipe_id != recipe_id) }
  let affected := (tx1.recipes.filter (fun r => r.recipe_id == recipe_id)).length
  let tx2 : Db := { tx1 with
    recipes := tx1.recipes.filter (fun r => r.recipe_id != recipe_id) }
  if affected > 0 then (tx2, .ok ()) else (db, .error .NotFound)

/-- The `WHERE` clause of `search_recipes`, evaluated on one `recipe` row:
each `NULL` criterion short-circuits to true; the recipe name is matched with
`ILIKE '%' || $1 || '%'`; the ingredient criterion is an `EXISTS` subquery
over the `ingredient` table; the meal type is exact equality. -/
def rowMatches (db : Db) (args : SearchRecipesArguments) (r : RecipeRow) : Bool :=
  (match args.recipe_name with
   | none => true
   | some t => ilikeContains r.name t) &&
  (match args.ingredient_name with
   | none => true
   | some t => db.ingredients.any (fun i =>
      i.recipe_id == r.recipe_id && ilikeContains i.name t)) &&
  (match args.meal_type with
   | none => true
   | some m => decide (r.meal_type = m))

/-- `Postgres::search_recipes`: the same grouped read shape as
`list_recipes`, restricted by the `WHERE` clause. -/
def search_recipes (db : Db) (args : SearchRecipesArguments) : List RecipeEntity :=
  (db.recipes.filter (rowMatches db args)).map (rowToEntity db)

namespace Core

/-- `core::recipe::UpdateRecipeError`. -/
inductive UpdateRecipeError where
  | Unknown (msg : String)
  | NotFound
deriving DecidableEq, Repr

/-- `core::recipe::DeleteRecipeError`. -/
inductive DeleteRecipeError where
  | Unknown (msg : String)
  | NotFound
deriving DecidableEq, Repr

/-- `core::recipe::CreateRecipeError`. -/
inductive CreateRecipeError where
  | Unknown (msg : String)
deriving DecidableEq, Repr

/-- `core::recipe::ListRecipeError`. -/
inductive ListRecipeError where
  | Unknown (msg : String)
deriving DecidableEq, Repr

/-- `core::recipe::SearchRecipeError`. -/
inductive SearchRecipeError where
  | Unknown (msg : String)
deriving DecidableEq, Repr

end Core

/-- `impl From<persistance::recipe::UpdateRecipeError> for core UpdateRecipeError`. -/
def coreUpdateErrorFrom : UpdateRecipeError → Core.UpdateRecipeError
  | .Unknown m => .Unknown m
  | .NotFound => .NotFound

/-- `impl From<persistance::recipe::DeleteRecipeError> for core DeleteRecipeError`. -/
def coreDeleteErrorFrom : DeleteRecipeError → Core.DeleteRecipeError
  | .Unknown m => .Unknown m
  | .NotFound => .NotFound

/-- `impl From<persistance::recipe::CreateRecipeError> for core CreateRecipeError`. -/
def coreCreateErrorFrom : CreateRecipeError → Core.CreateRecipeError
  | .Unknown m => .Unknown m

/-- `impl From<persistance::recipe::ListRecipeError> for core ListRecipeError`. -/
def coreListErrorFrom : ListRecipeError → Core.ListRecipeError
  | .Unknown m => .Unknown m

/-- `impl From<persistance::recipe::SearchRecipeError> for core SearchRecipeError`. -/
def coreSearchErrorFrom : SearchRecipeError → Core.SearchRecipeError
  | .Unknown m => .Unknown m

/-- The ingredient data carried by an ingredient row, i.e. the projection
forgetting the store-assigned identity and position. -/
def ingredientData (i : IngredientEntity) : MutableIngredientEntity :=
  ⟨i.name, i.quantity_type, i.quantity⟩

/-- Case-insensitive substring containment, defined from the spec's words
("case-insensitive substring match ... on recipe name") for comparison with
the `ILIKE` pattern the code actually issues: the claim-side predicate of C6. -/
def strStartsWith : List Char → List Char → Bool
  | _, [] => true
  | [], _ :: _ => false
  | c :: s, p :: ps => c == p && strStartsWith s ps

/-- Does `pat` occur contiguously anywhere in `s`? Spec-side helper for C6. -/
def strContainsSub : List Char → List Char → Bool
  | [], pat => pat.isEmpty
  | c :: s, pat => strStartsWith (c :: s) pat || strContainsSub s pat

/-- Spec-side predicate of C6: `term` occurs in `s` as a case-insensitive
substring (no wildcard interpretation of any character). -/
def specCiSubstring (s term : String) : Bool :=
  strContainsSub (lowerStr s) (lowerStr term)

/-! ### Helper lemmas -/

theorem i64AsU64_u64AsI64 (n : Nat) (h : n < 2 ^ 64) :
    i64AsU64 (u64AsI64 n) = n := by
  unfold i64AsU64 u64AsI64
  split <;> omega

theorem usizeAsI32_eq_of_lt (k : Nat) (h : k < 2 ^ 31) :
    usizeAsI32 k = (k : Int) := by
  unfold usizeAsI32
  split <;> omega

theorem newIngredientRows_length (nid rid : Int)
    (ings : List MutableIngredientEntity) :
    (newIngredientRows nid rid ings).length = ings.length := by
  simp [newIngredientRows]

theorem newIngredientRows_proj (nid rid : Int)
    (ings : List MutableIngredientEntity) :
    (newIngredientRows nid rid ings).map ingredientData = ings := by
  unfold newIngredientRows
  rw [List.map_map]
  show ings.enum.map Prod.snd = ings
  exact List.enum_map_snd ings

theorem newIngredientRows_orders (nid rid : Int)
    (ings : List MutableIngredientEntity) (hlen : ings.length < 2 ^ 31) :
    (newIngredientRows nid rid ings).map (·.ingredient_order) =
      (List.range ings.length).map Int.ofNat := by
  have h1 : (newIngredientRows nid rid ings).map (·.ingredient_order) =
      (ings.enum.map Prod.fst).map usizeAsI32 := by
    unfold newIngredientRows
    rw [List.map_map, List.map_map]
    rfl
  rw [h1, List.enum_map_fst]
  refine List.map_congr_left (fun k hk => ?_)
  rw [List.mem_range] at hk
  exact usizeAsI32_eq_of_lt k (by omega)

theorem mem_newIngredientRows {i : IngredientEntity} {nid rid : Int}
    {ings : List MutableIngredientEntity}
    (h : i ∈ newIngredientRows nid rid ings) :
    i.recipe_id = rid ∧ nid ≤ i.ingredient_id := by
  unfold newIngredientRows at h
  rw [List.mem_map] at h
  obtain ⟨p, _, rfl⟩ := h
  refine ⟨rfl, ?_⟩
  show nid ≤ nid + (p.1 : Int)
  omega

theorem create_ingredients_eq (db : Db) (rid : Int)
    (ings : List MutableIngredientEntity) :
    create_ingredients db rid ings =
      .ok ({ db with
              ingredients := db.ingredients ++ newIngredientRows db.nextIngredientId rid ings
              nextIngredientId := db.nextIngredientId + ings.length },
           newIngredientRows db.nextIngredientId rid ings) := by
  cases ings with
  | nil => simp [create_ingredients, newIngredientRows]
  | cons a l => simp [create_ingredients, bulkInsertIngredients]

theorem create_recipe_eq (db : Db) (e : MutableRecipeEntity) :
    create_recipe db e =
      ({ recipes := db.recipes ++ [newRecipeRow db.nextRecipeId e]
         ingredients := db.ingredients ++
           newIngredientRows db.nextIngredientId db.nextRecipeId e.ingredients
         nextRecipeId := db.nextRecipeId + 1
         nextIngredientId := db.nextIngredientId + e.ingredients.length },
       .ok (rowReturned (newRecipeRow db.nextRecipeId e)
         (newIngredientRows db.nextIngredientId db.nextRecipeId e.ingredients))) := by
  unfold create_recipe
  simp only [create_ingredients_eq]
  rfl

theorem update_recipe_found (db : Db) (rid : Int) (e : MutableRecipeEntity)
    (old : RecipeRow)
    (hf : db.recipes.find? (fun r => r.recipe_id == rid) = some old) :
    update_recipe db rid e =
      ({ recipes := db.recipes.map
           (fun r => if r.recipe_id == rid then newRecipeRow old.recipe_id e else r)
         ingredients := db.ingredients.filter (fun i => i.recipe_id != rid) ++
           newIngredientRows db.nextIngredientId old.recipe_id e.ingredients
         nextRecipeId := db.nextRecipeId
         nextIngredientId := db.nextIngredientId + e.ingredients.length },
       .ok (rowReturned (newRecipeRow old.recipe_id e)
         (newIngredientRows db.nextIngredientId old.recipe_id e.ingredients))) := by
  unfold update_recipe
  rw [hf]
  simp only [create_ingredients_eq]
  rfl

theorem update_recipe_none (db : Db) (rid : Int) (e : MutableRecipeEntity)
    (hf : db.recipes.find? (fun r => r.recipe_id == rid) = none) :
    update_recipe db rid e = (db, .error .NotFound) := by
  unfold update_recipe
  rw [hf]

theorem filter_append_newRows (pre : List IngredientEntity) (nid rid : Int)
    (ings : List MutableIngredientEntity)
    (hpre : ∀ i ∈ pre, ¬ i.recipe_id = rid) :
    ((pre ++ newIngredientRows nid rid ings).filter
      (fun i => i.recipe_id == rid)) = newIngredientRows nid rid ings := by
  rw [List.filter_append]
  have h1 : pre.filter (fun i => i.recipe_id == rid) = [] := by
    rw [List.filter_eq_nil_iff]
    intro a ha
    simpa using hpre a ha
  have h2 : (newIngredientRows nid rid ings).filter
      (fun i => i.recipe_id == rid) = newIngredientRows nid rid ings := by
    rw [List.filter_eq_self]
    intro a ha
    simpa using (mem_newIngredientRows ha).1
  rw [h1, h2, List.nil_append]

/-! ### Concrete fixtures used by witnesses and counterexamples -/

/-- A small well-formed store: one recipe (id 1) owning one ingredient. -/
def exDb : Db :=
  ⟨[⟨1, "Pasta", none, none, .Lunch⟩], [⟨1, 1, 0, "Old", .Count, 1⟩], 2, 2⟩

/-- A submitted recipe with two ingredients and a cooking time of
90 s + 500 ns. -/
def exEntity : MutableRecipeEntity :=
  ⟨"Updated", some "d", [⟨"C", .Count, 1⟩, ⟨"D", .Gram, 2⟩], some ⟨90, 500⟩, .Dinner⟩

/-- A submitted recipe with no ingredients. -/
def exEmpty : MutableRecipeEntity := ⟨"NoIngs", none, [], none, .Breakfast⟩

/-- The store committed by `update_recipe exDb 1 exEntity`. -/
def exUpdated : Db := (update_recipe exDb 1 exEntity).1

/-- The entity returned by `update_recipe exDb 1 exEntity`. -/
def exRet : RecipeEntity :=
  match (update_recipe exDb 1 exEntity).2 with
  | .ok r => r
  | .error _ => ⟨0, "", none, [], none, .Breakfast⟩

/-- The store committed by `create_recipe exDb exEntity`. -/
def exCreated : Db := (create_recipe exDb exEntity).1

/-- The entity returned by `create_recipe exDb exEntity`. -/
def exCRet : RecipeEntity :=
  match (create_recipe exDb exEntity).2 with
  | .ok r => r
  | .error _ => ⟨0, "", none, [], none, .Breakfast⟩

/-- A store with one recipe named "abc" for the search counterexample. -/
def exSearchDb : Db := ⟨[⟨1, "abc", none, none, .Lunch⟩], [], 2, 1⟩

/-- Search criteria whose recipe-name term contains the `_` LIKE wildcard. -/
def exSearchArgs : SearchRecipesArguments := ⟨some "a_c", none, none⟩

/-! ### Claims -/

/-- **C3**: for a `recipe_id` with no recipe row, `update_recipe` and
`delete_recipe` both fail with the `NotFound` variant and leave the store
exactly as it was (the transaction is not committed). -/
theorem c3_notfound_rollback (db : Db) (rid : Int) (e : MutableRecipeEntity)
    (habs : ∀ r ∈ db.recipes, r.recipe_id ≠ rid) :
    update_recipe db rid e = (db, .error .NotFound) ∧
    delete_recipe db rid = (db, .error .NotFound) := by
  constructor
  · apply update_recipe_none
    rw [List.find?_eq_none]
    intro r hr
    simpa using habs r hr
  · have h1 : db.recipes.filter (fun r => r.recipe_id == rid) = [] := by
      rw [List.filter_eq_nil_iff]
      intro r hr
      simpa using habs r hr
    unfold delete_recipe
    simp [h1]

/-- **C3** witness: recipe id 99 does not exist in `exDb`; both operations
fail with `NotFound` and return the untouched store. -/
theorem c3_witness :
    (∀ r ∈ exDb.recipes, r.recipe_id ≠ 99) ∧
    update_recipe exDb 99 exEntity = (exDb, .error .NotFound) :=
  ⟨by decide, (c3_notfound_rollback exDb 99 exEntity (by decide)).1⟩

/-- **C5**: every write protocol is all-or-nothing — whenever
`create_recipe`, `update_recipe` or `delete_recipe` returns an error, the
committed store equals the store before the call; no partial
recipe/ingredient state is ever committed. -/
theorem c5_all_or_nothing (db : Db) (rid : Int) (e : MutableRecipeEntity) :
    (∀ err, (create_recipe db e).2 = .error err → (create_recipe db e).1 = db) ∧
    (∀ err, (update_recipe db rid e).2 = .error err → (update_recipe db rid e).1 = db) ∧
    (∀ err, (delete_recipe db rid).2 = .error err → (delete_recipe db rid).1 = db) := by
  refine ⟨?_, ?_, ?_⟩
  · intro err h
    rw [create_recipe_eq] at h
    simp at h
  · intro err h
    cases hf : db.recipes.find? (fun r => r.recipe_id == rid) with
    | none => rw [update_recipe_none db rid e hf]
    | some old =>
      rw [update_recipe_found db rid e old hf] at h
      simp at h
  · intro err h
    unfold delete_recipe at h ⊢
    simp only [] at h ⊢
    by_cases hc : 0 < (db.recipes.filter (fun r => r.recipe_id == rid)).length
    · rw [if_pos hc] at h
      simp at h
    · rw [if_neg hc]

/-- **C5** witness: deleting the absent recipe id 99 errors and leaves
`exDb` unchanged. -/
theorem c5_witness :
    (delete_recipe exDb 99).2 = .error .NotFound ∧ (delete_recipe exDb 99).1 = exDb :=
  ⟨by decide, (c5_all_or_nothing exDb 99 exEntity).2.2 .NotFound (by decide)⟩

/-- **C8**: deleting an existing recipe removes its recipe row and every
ingredient row referencing it, and leaves every other recipe row and every
ingredient row of other recipes unchanged (in place, in order). -/
theorem c8_delete_cascade_frame (db : Db) (rid : Int) (r0 : RecipeRow)
    (hmem : r0 ∈ db.recipes) (hid : r0.recipe_id = rid) :
    (delete_recipe db rid).2 = .ok () ∧
    (delete_recipe db rid).1.recipes = db.recipes.filter (fun r => r.recipe_id != rid) ∧
    (delete_recipe db rid).1.ingredients =
      db.ingredients.filter (fun i => i.recipe_id != rid) ∧
    (∀ r ∈ (delete_recipe db rid).1.recipes, r.recipe_id ≠ rid) ∧
    (∀ i ∈ (delete_recipe db rid).1.ingredients, i.recipe_id ≠ rid) ∧
    (∀ r ∈ db.recipes, r.recipe_id ≠ rid → r ∈ (delete_recipe db rid).1.recipes) ∧
    (∀ i ∈ db.ingredients, i.recipe_id ≠ rid → i ∈ (delete_recipe db rid).1.ingredients) := by
  have haff : 0 < (db.recipes.filter (fun r => r.recipe_id == rid)).length := by
    have : r0 ∈ db.recipes.filter (fun r => r.recipe_id == rid) := by
      rw [List.mem_filter]
      exact ⟨hmem, by simpa using hid⟩
    exact List.length_pos.mpr (fun hnil => by simp [hnil] at this)
  have hdel : delete_recipe db rid =
      ({ db with
          recipes := db.recipes.filter (fun r => r.recipe_id != rid)
          ingredients := db.ingredients.filter (fun i => i.recipe_id != rid) },
       .ok ()) := by
    unfold delete_recipe
    simp only []
    rw [if_pos haff]
  rw [hdel]
  refine ⟨rfl, rfl, rfl, ?_, ?_, ?_, ?_⟩
  · intro r hr
    have := (List.mem_filter.mp hr).2
    simpa using this
  · intro i hi
    have := (List.mem_filter.mp hi).2
    simpa using this
  · intro r hr hne
    exact List.mem_filter.mpr ⟨hr, by simpa using hne⟩
  · intro i hi hne
    exact List.mem_filter.mpr ⟨hi, by simpa using hne⟩

/-- **C8** witness: deleting recipe 1 from `exDb` succeeds and removes its
ingredient row. -/
theorem c8_witness :
    (⟨1, "Pasta", none, none, .Lunch⟩ : RecipeRow) ∈ exDb.recipes ∧
    (delete_recipe exDb 1).2 = .ok () :=
  ⟨by decide,
   (c8_delete_cascade_frame exDb 1 ⟨1, "Pasta", none, none, .Lunch⟩
     (by decide) (by decide)).1⟩

/-- **C9**: the domain service's error conversions map repository error
variants to domain error variants 1:1 — `NotFound` to `NotFound`, `Unknown`
to `Unknown` (payload preserved) — for every operation, so `NotFound` is
never collapsed into `Unknown`. -/
theorem c9_error_mapping :
    (∀ m, coreUpdateErrorFrom (.Unknown m) = .Unknown m) ∧
    coreUpdateErrorFrom .NotFound = .NotFound ∧
    (∀ m, coreDeleteErrorFrom (.Unknown m) = .Unknown m) ∧
    coreDeleteErrorFrom .NotFound = .NotFound ∧
    (∀ m, coreCreateErrorFrom (.Unknown m) = .Unknown m) ∧
    (∀ m, coreListErrorFrom (.Unknown m) = .Unknown m) ∧
    (∀ m, coreSearchErrorFrom (.Unknown m) = .Unknown m) ∧
    (∀ pe, coreUpdateErrorFrom pe = .NotFound ↔ pe = .NotFound) ∧
    (∀ pe, coreDeleteErrorFrom pe = .NotFound ↔ pe = .NotFound) := by
  refine ⟨fun m => rfl, rfl, fun m => rfl, rfl, fun m => rfl, fun m => rfl, fun m => rfl, ?_, ?_⟩
  · intro pe
    cases pe <;> simp [coreUpdateErrorFrom]
  · intro pe
    cases pe <;> simp [coreDeleteErrorFrom]

/-- **C9** witness: the update-error conversion at the concrete `NotFound`
value. -/
theorem c9_witness : coreUpdateErrorFrom .NotFound = .NotFound :=
  c9_error_mapping.2.1

/-- **C2**: creating or updating with an empty submitted ingredient list
succeeds — `create_ingredients` skips the bulk insert entirely, so no
invalid zero-row insert is issued and no error arises — and the returned
recipe has an empty ingredient list (the update still clears the old
ingredient rows of the recipe). -/
theorem c2_empty_ingredient_list (db : Db) (e : MutableRecipeEntity) (rid : Int)
    (old : RecipeRow) (hempty : e.ingredients = [])
    (hfound : db.recipes.find? (fun r => r.recipe_id == rid) = some old) :
    create_ingredients db rid e.ingredients = .ok (db, []) ∧
    (∃ db1 ret1, create_recipe db e = (db1, .ok ret1) ∧ ret1.ingredients = [] ∧
      db1.ingredients = db.ingredients) ∧
    (∃ db2 ret2, update_recipe db rid e = (db2, .ok ret2) ∧ ret2.ingredients = [] ∧
      db2.ingredients = db.ingredients.filter (fun i => i.recipe_id != rid)) := by
  have hrows : ∀ nid prid : Int, newIngredientRows nid prid e.ingredients = [] := by
    intro nid prid
    rw [hempty]
    rfl
  refine ⟨?_, ?_, ?_⟩
  · rw [hempty]
    rfl
  · refine ⟨_, _, create_recipe_eq db e, ?_, ?_⟩
    · simp [rowReturned, hrows]
    · simp [hrows]
  · refine ⟨_, _, update_recipe_found db rid e old hfound, ?_, ?_⟩
    · simp [rowReturned, hrows]
    · simp [hrows]

/-- **C2** witness: creating and updating with the empty-ingredient entity
`exEmpty` on `exDb`. -/
theorem c2_witness :
    exEmpty.ingredients = [] ∧
    exDb.recipes.find? (fun r => r.recipe_id == 1) =
      some ⟨1, "Pasta", none, none, .Lunch⟩ ∧
    create_ingredients exDb 1 exEmpty.ingredients = .ok (exDb, []) :=
  ⟨by decide, by decide,
   (c2_empty_ingredient_list exDb exEmpty 1 ⟨1, "Pasta", none, none, .Lunch⟩
     (by decide) (by decide)).1⟩

/-! ### Further helper lemmas for the create/update claims -/

theorem rows_filter_ne (nid rid ridQ : Int) (ings : List MutableIngredientEntity)
    (hne : ridQ ≠ rid) :
    (newIngredientRows nid rid ings).filter (fun i => i.recipe_id == ridQ) = [] := by
  rw [List.filter_eq_nil_iff]
  intro i hi
  have h1 := (mem_newIngredientRows hi).1
  simp only [h1, beq_iff_eq]
  exact fun hcontra => hne hcontra.symm

theorem filtered_pre_ne (db : Db) (rid : Int) :
    ∀ i ∈ db.ingredients.filter (fun i => i.recipe_id != rid), ¬ i.recipe_id = rid := by
  intro i hi
  have := (List.mem_filter.mp hi).2
  simpa using this

theorem cooked_roundtrip (e : MutableRecipeEntity)
    (hsecs : ∀ d, e.cooking_time = some d → d.secs < 2 ^ 64) :
    (e.cooking_time.map (fun t => u64AsI64 t.as_secs)).map
        (fun v => Duration.from_secs (i64AsU64 v)) =
      e.cooking_time.map (fun d => Duration.from_secs d.as_secs) := by
  cases hc : e.cooking_time with
  | none => rfl
  | some d =>
    show some (Duration.from_secs (i64AsU64 (u64AsI64 d.as_secs))) =
      some (Duration.from_secs d.as_secs)
    rw [i64AsU64_u64AsI64 d.as_secs (hsecs d hc)]

theorem rowToEntity_congr (db1 db2 : Db) (r : RecipeRow)
    (h : ingredientsFor db1 r.recipe_id = ingredientsFor db2 r.recipe_id) :
    rowToEntity db1 r = rowToEntity db2 r := by
  unfold rowToEntity
  rw [h]

theorem rowToEntity_eq_rowReturned (db1 : Db) (row : RecipeRow)
    (ings : List IngredientEntity) (h : ingredientsFor db1 row.recipe_id = ings) :
    rowToEntity db1 row = rowReturned row ings := by
  unfold rowToEntity rowReturned
  rw [h]

theorem create_recipe_list (db : Db) (e : MutableRecipeEntity) (hwf : db.wf) :
    list_recipes (create_recipe db e).1 =
      list_recipes db ++
        [rowReturned (newRecipeRow db.nextRecipeId e)
          (newIngredientRows db.nextIngredientId db.nextRecipeId e.ingredients)] := by
  rw [create_recipe_eq]
  unfold list_recipes
  show (db.recipes ++ [newRecipeRow db.nextRecipeId e]).map _ = _
  rw [List.map_append]
  congr 1
  · apply List.map_congr_left
    intro r hr
    apply rowToEntity_congr
    unfold ingredientsFor
    show (db.ingredients ++ _).filter _ = _
    rw [List.filter_append,
      rows_filter_ne db.nextIngredientId db.nextRecipeId r.recipe_id e.ingredients
        (ne_of_lt (hwf.2.2.1 r hr)), List.append_nil]
  · show [rowToEntity _ (newRecipeRow db.nextRecipeId e)] = _
    congr 1
    apply rowToEntity_eq_rowReturned
    unfold ingredientsFor
    show (db.ingredients ++ _).filter (fun i => i.recipe_id == db.nextRecipeId) = _
    exact filter_append_newRows db.ingredients db.nextIngredientId db.nextRecipeId
      e.ingredients (fun i hi => ne_of_lt ((hwf.2.2.2 i hi).1))

/-! ### Claims C1, C4, C7, C10 -/

/-- **C1** (amended): after a successful `update_recipe recipe_id entity`,
the recipe's scalar fields equal the submitted ones — except `cooking_time`,
which is truncated to whole seconds — and the stored ingredient rows of that
recipe are exactly `entity.ingredients` in submitted order; no ingredient row
from before the update remains, including when the new list is shorter. -/
theorem c1_update_full_replace (db : Db) (rid : Int) (e : MutableRecipeEntity)
    (db' : Db) (ret : RecipeEntity) (hwf : db.wf)
    (h : update_recipe db rid e = (db', .ok ret)) :
    ret.name = e.name ∧ ret.description = e.description ∧
    ret.meal_type = e.meal_type ∧
    (∀ d, e.cooking_time = some d → d.secs < 2 ^ 64 →
      ret.cooking_time = some (Duration.from_secs d.as_secs)) ∧
    (e.cooking_time = none → ret.cooking_time = none) ∧
    (ingredientsFor db' rid).map ingredientData = e.ingredients ∧
    (∀ i ∈ db'.ingredients, i.recipe_id = rid → i ∉ db.ingredients) := by
  cases hf : db.recipes.find? (fun r => r.recipe_id == rid) with
  | none =>
    rw [update_recipe_none db rid e hf] at h
    rw [Prod.mk.injEq] at h
    exact absurd h.2 (by simp)
  | some old =>
    have hold : old.recipe_id = rid := by
      have := List.find?_some hf
      simpa using this
    rw [update_recipe_found db rid e old hf, Prod.mk.injEq] at h
    obtain ⟨hdb, hret⟩ := h
    injection hret with hret
    subst hdb
    subst hret
    rw [hold]
    refine ⟨rfl, rfl, rfl, ?_, ?_, ?_, ?_⟩
    · intro d hd hlt
      show (e.cooking_time.map _).map _ = _
      rw [cooked_roundtrip e (fun d1 hd1 => by rw [hd] at hd1; cases hd1; exact hlt), hd]
      rfl
    · intro hd
      show (e.cooking_time.map _).map _ = _
      rw [hd]
      rfl
    · unfold ingredientsFor
      show ((db.ingredients.filter (fun i => i.recipe_id != rid) ++
        newIngredientRows db.nextIngredientId rid e.ingredients).filter
          (fun i => i.recipe_id == rid)).map ingredientData = e.ingredients
      rw [filter_append_newRows (db.ingredients.filter (fun i => i.recipe_id != rid))
        db.nextIngredientId rid e.ingredients (filtered_pre_ne db rid)]
      exact newIngredientRows_proj db.nextIngredientId rid e.ingredients
    · intro i hi hirid hiold
      show False
      have hi2 : i ∈ db.ingredients.filter (fun i => i.recipe_id != rid) ++
          newIngredientRows db.nextIngredientId rid e.ingredients := hi
      rcases List.mem_append.mp hi2 with hl | hr
      · exact filtered_pre_ne db rid i hl hirid
      · have := (mem_newIngredientRows hr).2
        have hlt := (hwf.2.2.2 i hiold).2
        omega

/-- **C1** counterexample: updating recipe 1 of `exDb` with a submitted
`cooking_time` of 90 s + 500 ns succeeds, but the updated recipe's
`cooking_time` comes back as exactly 90 s, so the recipe's scalar fields do
not all equal the submitted ones. -/
theorem c1_counterexample :
    (update_recipe exDb 1 exEntity).2 = .ok exRet ∧
    exEntity.cooking_time = some ⟨90, 500⟩ ∧
    exRet.cooking_time = some ⟨90, 0⟩ ∧
    exRet.cooking_time ≠ exEntity.cooking_time := by
  refine ⟨by decide, by decide, by decide, by decide⟩

/-- **C1** witness: the amended theorem applied to `update_recipe exDb 1
exEntity`. -/
theorem c1_witness :
    exDb.wf ∧ update_recipe exDb 1 exEntity = (exUpdated, .ok exRet) ∧
    (ingredientsFor exUpdated 1).map ingredientData = exEntity.ingredients :=
  ⟨by decide, by decide,
   (c1_update_full_replace exDb 1 exEntity exUpdated exRet (by decide)
     (by decide)).2.2.2.2.2.1⟩

/-- **C4**: after every successful `create_recipe` or `update_recipe` with a
submitted ingredient list of length `N` (`N` a representable index count,
`N < 2^31`), the stored `ingredient_order` values of that recipe's
ingredient rows are exactly `0..N-1` in list position order — dense, no gaps,
no duplicates, each equal to its index in the submitted list — recomputed
from scratch on every write. -/
theorem c4_dense_orders (db : Db) (e : MutableRecipeEntity) (hwf : db.wf)
    (hlen : e.ingredients.length < 2 ^ 31) :
    (∀ db' ret, create_recipe db e = (db', .ok ret) →
      (ingredientsFor db' ret.recipe_id).map (·.ingredient_order) =
        (List.range e.ingredients.length).map Int.ofNat) ∧
    (∀ rid db' ret, update_recipe db rid e = (db', .ok ret) →
      (ingredientsFor db' rid).map (·.ingredient_order) =
        (List.range e.ingredients.length).map Int.ofNat) := by
  constructor
  · intro db' ret h
    rw [create_recipe_eq, Prod.mk.injEq] at h
    obtain ⟨hdb, hret⟩ := h
    injection hret with hret
    subst hdb
    subst hret
    show ((db.ingredients ++ _).filter
      (fun i => i.recipe_id == db.nextRecipeId)).map _ = _
    rw [filter_append_newRows db.ingredients db.nextIngredientId db.nextRecipeId
      e.ingredients (fun i hi => ne_of_lt ((hwf.2.2.2 i hi).1))]
    exact newIngredientRows_orders db.nextIngredientId db.nextRecipeId e.ingredients hlen
  · intro rid db' ret h
    cases hf : db.recipes.find? (fun r => r.recipe_id == rid) with
    | none =>
      rw [update_recipe_none db rid e hf, Prod.mk.injEq] at h
      exact absurd h.2 (by simp)
    | some old =>
      have hold : old.recipe_id = rid := by
        have := List.find?_some hf
        simpa using this
      rw [update_recipe_found db rid e old hf, Prod.mk.injEq] at h
      obtain ⟨hdb, hret⟩ := h
      subst hdb
      rw [hold]
      show ((db.ingredients.filter _ ++ _).filter _).map _ = _
      rw [filter_append_newRows (db.ingredients.filter (fun i => i.recipe_id != rid))
        db.nextIngredientId rid e.ingredients (filtered_pre_ne db rid)]
      exact newIngredientRows_orders db.nextIngredientId rid e.ingredients hlen

/-- **C4** witness: the dense-order property at `create_recipe exDb exEntity`. -/
theorem c4_witness :
    exDb.wf ∧ exEntity.ingredients.length < 2 ^ 31 ∧
    create_recipe exDb exEntity = (exCreated, .ok exCRet) ∧
    (ingredientsFor exCreated exCRet.recipe_id).map (·.ingredient_order) =
      (List.range exEntity.ingredients.length).map Int.ofNat :=
  ⟨by decide, by decide, by decide,
   (c4_dense_orders exDb exEntity (by decide) (by decide)).1 exCreated exCRet (by decide)⟩

/-- **C7**: creating a recipe with `N` ingredients and immediately listing
yields the previous listing plus exactly the new recipe, whose ingredient
list has length `N`, the submitted names/quantities/quantity types in
submitted order, `ingredient_order` equal to the original index `0..N-1`,
and is the empty list (not an absent value) when no ingredients were
submitted. -/
theorem c7_create_roundtrip (db : Db) (e : MutableRecipeEntity) (db' : Db)
    (ret : RecipeEntity) (hwf : db.wf) (hlen : e.ingredients.length < 2 ^ 31)
    (h : create_recipe db e = (db', .ok ret)) :
    list_recipes db' = list_recipes db ++ [ret] ∧
    ret.ingredients.length = e.ingredients.length ∧
    ret.ingredients.map ingredientData = e.ingredients ∧
    ret.ingredients.map (·.ingredient_order) =
      (List.range e.ingredients.length).map Int.ofNat ∧
    (e.ingredients = [] → ret.ingredients = []) := by
  have hlist := create_recipe_list db e hwf
  rw [create_recipe_eq, Prod.mk.injEq] at h
  obtain ⟨hdb, hret⟩ := h
  injection hret with hret
  subst hdb
  subst hret
  refine ⟨?_, ?_, ?_, ?_, ?_⟩
  · rw [create_recipe_eq] at hlist
    exact hlist
  · show (newIngredientRows _ _ _).length = _
    exact newIngredientRows_length db.nextIngredientId db.nextRecipeId e.ingredients
  · exact newIngredientRows_proj db.nextIngredientId db.nextRecipeId e.ingredients
  · exact newIngredientRows_orders db.nextIngredientId db.nextRecipeId e.ingredients hlen
  · intro hempty
    show newIngredientRows _ _ e.ingredients = []
    rw [hempty]
    rfl

/-- **C7** witness: the round-trip at `create_recipe exDb exEntity`. -/
theorem c7_witness :
    exDb.wf ∧ create_recipe exDb exEntity = (exCreated, .ok exCRet) ∧
    list_recipes exCreated = list_recipes exDb ++ [exCRet] :=
  ⟨by decide, by decide,
   (c7_create_roundtrip exDb exEntity exCreated exCRet (by decide) (by decide)
     (by decide)).1⟩

/-- **C10**: `cooking_time` is persisted with whole-second truncation — a
recipe written with `cooking_time = some d` comes back (from the write's own
return value and from a subsequent listing) with
`some (Duration.from_secs d.as_secs)`, dropping any sub-second component;
`none` round-trips to `none`. -/
theorem c10_cooking_time_truncated (db : Db) (e : MutableRecipeEntity)
    (hwf : db.wf)
    (hsecs : ∀ d, e.cooking_time = some d → d.secs < 2 ^ 64) :
    (∀ db' ret, create_recipe db e = (db', .ok ret) →
      ret.cooking_time = e.cooking_time.map (fun d => Duration.from_secs d.as_secs) ∧
      ret ∈ list_recipes db') ∧
    (∀ rid db' ret, update_recipe db rid e = (db', .ok ret) →
      ret.cooking_time = e.cooking_time.map (fun d => Duration.from_secs d.as_secs)) := by
  constructor
  · intro db' ret h
    have hlist := create_recipe_list db e hwf
    rw [create_recipe_eq, Prod.mk.injEq] at h
    obtain ⟨hdb, hret⟩ := h
    injection hret with hret
    subst hdb
    subst hret
    constructor
    · show (e.cooking_time.map _).map _ = _
      exact cooked_roundtrip e hsecs
    · rw [create_recipe_eq] at hlist
      rw [hlist]
      exact List.mem_append_right _ (List.mem_singleton.mpr rfl)
  · intro rid db' ret h
    cases hf : db.recipes.find? (fun r => r.recipe_id == rid) with
    | none =>
      rw [update_recipe_none db rid e hf, Prod.mk.injEq] at h
      exact absurd h.2 (by simp)
    | some old =>
      rw [update_recipe_found db rid e old hf, Prod.mk.injEq] at h
      obtain ⟨hdb, hret⟩ := h
      injection hret with hret
      subst hret
      show (e.cooking_time.map _).map _ = _
      exact cooked_roundtrip e hsecs

/-- **C10** witness: creating `exDb`'s entity with cooking time 90 s + 500 ns
returns cooking time exactly 90 s. -/
theorem c10_witness :
    exDb.wf ∧ (∀ d, exEntity.cooking_time = some d → d.secs < 2 ^ 64) ∧
    create_recipe exDb exEntity = (exCreated, .ok exCRet) ∧
    exCRet.cooking_time =
      exEntity.cooking_time.map (fun d => Duration.from_secs d.as_secs) :=
  ⟨by decide, by decide, by decide,
   ((c10_cooking_time_truncated exDb exEntity (by decide) (by decide)).1
     exCreated exCRet (by decide)).1⟩

/-- **C6** counterexample: with the single recipe "abc" in the store,
searching with `recipe_name = some "a_c"` returns that recipe — the `_` in
the term acts as a single-character `LIKE` wildcard — although "a_c" is not a
case-insensitive substring of "abc", so the result is not the set of recipes
whose name contains the term as a case-insensitive substring. -/
theorem c6_counterexample :
    (search_recipes exSearchDb exSearchArgs).map (·.name) = ["abc"] ∧
    specCiSubstring "abc" "a_c" = false ∧
    search_recipes exSearchDb exSearchArgs ≠
      (list_recipes exSearchDb).filter (fun r => specCiSubstring r.name "a_c") := by
  refine ⟨by decide, by decide, by decide⟩

/-- **C6** (amended): `search_recipes` returns exactly the recipes satisfying
the conjunction of its criteria, where each absent criterion is always-true;
the name criteria are SQL `ILIKE '%term%'` matches (case-insensitive; for
terms free of the `LIKE` wildcards `%`, `_` and backslash this coincides with
case-insensitive substring containment); the ingredient criterion holds iff
some ingredient of the recipe matches (an existence check, equivalently over
the recipe's own composed ingredient list); the meal-type criterion is exact
equality; and no recipe is ever duplicated in the result. -/
theorem c6_search_conjunction (db : Db) (args : SearchRecipesArguments)
    (hwf : db.wf) :
    search_recipes db args = (list_recipes db).filter (fun r =>
      (match args.recipe_name with
       | none => true
       | some t => ilikeContains r.name t) &&
      (match args.ingredient_name with
       | none => true
       | some t => r.ingredients.any (fun i => ilikeContains i.name t)) &&
      (match args.meal_type with
       | none => true
       | some m => decide (r.meal_type = m))) ∧
    search_recipes db ⟨none, none, none⟩ = list_recipes db ∧
    ((search_recipes db args).map (·.recipe_id)).Nodup := by
  have hmain : ∀ a : SearchRecipesArguments,
      search_recipes db a = (list_recipes db).filter (fun r =>
        (match a.recipe_name with
         | none => true
         | some t => ilikeContains r.name t) &&
        (match a.ingredient_name with
         | none => true
         | some t => r.ingredients.any (fun i => ilikeContains i.name t)) &&
        (match a.meal_type with
         | none => true
         | some m => decide (r.meal_type = m))) := by
    intro a
    unfold search_recipes list_recipes
    rw [List.filter_map]
    congr 1
    apply List.filter_congr
    intro r hr
    unfold rowMatches rowToEntity ingredientsFor
    cases a.recipe_name <;> cases a.ingredient_name <;> cases a.meal_type <;>
      simp [List.any_filter, Bool.and_comm]
  refine ⟨hmain args, ?_, ?_⟩
  · rw [hmain ⟨none, none, none⟩]
    simp
  · have hsub : List.Sublist ((search_recipes db args).map (·.recipe_id))
        (db.recipes.map (·.recipe_id)) := by
      unfold search_recipes
      rw [List.map_map]
      show List.Sublist ((db.recipes.filter (rowMatches db args)).map
        (fun r => r.recipe_id)) _
      exact (List.filter_sublist _).map _
    exact List.Nodup.sublist hsub hwf.1

/-- **C6** witness: the amended search semantics applied to `exSearchDb`;
with all-absent criteria the search returns every recipe. -/
theorem c6_witness :
    exSearchDb.wf ∧
    search_recipes exSearchDb ⟨none, none, none⟩ = list_recipes exSearchDb :=
  ⟨by decide, (c6_search_conjunction exSearchDb exSearchArgs (by decide)).2.1⟩
